import Mathlib

/-!
# Verification of the authentication and task-management backends

Shallow embedding of the two subsystems of the repository:

* `EnterpriseAuth` — the FastAPI authentication microservice
  (`auth_routes.py`, `magic_link_routes.py`, `email_service.py`):
  JWT issuance, Google OAuth callback, magic-link request / verify / refresh.
* `EnterpriseTasks` — the Django task-management API
  (`enterprise/myapp/models/task_models.py`, `task_views.py`,
  `task_serializers.py`, `permissions.py`): task status / completion
  timestamp bookkeeping, task assignment and lead-assignee maintenance,
  queryset visibility filtering.

Conventions of the embedding:

* Timestamps (`datetime.utcnow()`, `timezone.now()`) are natural numbers
  counted in minutes; `timedelta(minutes=m)` is `m`, `timedelta(days=d)`
  is `d * 1440`.
* Database sessions are explicit state records; each HTTP handler is a
  function from the state (plus the current time and its request data) to
  a result together with the successor state.  Both web frameworks here
  run each handler in autocommit style, so a handler that writes and then
  returns an error response still keeps its earlier writes; handlers of
  the Django subsystem therefore return the new state together with an
  optional error response.
* A signed JWT is a payload paired with the signing key; `jwt.encode`
  constructs it and `jwt.decode` checks the key and the `exp` claim.
* Python dicts carrying JWT claims are association lists with
  last-binding-wins update semantics (`dictSet` removes the old binding).
-/

namespace EnterpriseAuth

/-- A JSON claim value appearing in a JWT payload: a string claim or a
timestamp claim (the `exp` value). -/
inductive ClaimVal where
  | str (s : String)
  | time (t : Nat)
deriving DecidableEq, Repr

/-- A JWT payload: a Python dict from claim names to claim values,
embedded as an association list. -/
abbrev Payload := List (String × ClaimVal)

/-- `d[k]` on a Python dict (first binding wins; `dictSet` keeps at most
one binding per key). -/
def dictGet : Payload → String → Option ClaimVal
  | [], _ => none
  | (k, v) :: rest, key => if key = k then some v else dictGet rest key

/-- `d.update({k: v})` on a Python dict: drop any old binding of `k` and
bind `k` to `v`. -/
def dictSet (d : Payload) (k : String) (v : ClaimVal) : Payload :=
  d.filter (fun p => p.1 != k) ++ [(k, v)]

/-- A signed JWT: the signing key together with the encoded claims.
`jwt.encode(claims, key, HS256)` is `⟨key, claims⟩`. -/
structure Jwt where
  key : String
  claims : Payload
deriving DecidableEq, Repr

/-- `ACCESS_TOKEN_EXPIRE_MINUTES` of `auth_routes.py` / `magic_link_routes.py`. -/
def ACCESS_TOKEN_EXPIRE_MINUTES : Nat := 60

/-- `REFRESH_TOKEN_EXPIRE_DAYS` of `auth_routes.py` / `magic_link_routes.py`. -/
def REFRESH_TOKEN_EXPIRE_DAYS : Nat := 30

/-- `MAGIC_LINK_EXPIRE_MINUTES` of `magic_link_routes.py`. -/
def MAGIC_LINK_EXPIRE_MINUTES : Nat := 15

/-- Minutes in a day: `timedelta(days=d)` is `d * minutesPerDay` minutes. -/
def minutesPerDay : Nat := 1440

/-- `create_access_token` (identical in `auth_routes.py` and
`magic_link_routes.py`): copy `data`, update it with the expiry
(60 minutes from now) and the type discriminator `"access"`, and sign. -/
def create_access_token (key : String) (now : Nat) (data : Payload) : Jwt :=
  ⟨key, dictSet (dictSet data "exp" (.time (now + ACCESS_TOKEN_EXPIRE_MINUTES)))
      "type" (.str "access")⟩

/-- `create_refresh_token` (identical in `auth_routes.py` and
`magic_link_routes.py`): copy `data`, update it with the expiry
(30 days from now) and the type discriminator `"refresh"`, and sign. -/
def create_refresh_token (key : String) (now : Nat) (data : Payload) : Jwt :=
  ⟨key, dictSet (dictSet data "exp"
      (.time (now + REFRESH_TOKEN_EXPIRE_DAYS * minutesPerDay)))
      "type" (.str "refresh")⟩

/-- Failure modes of `jose.jwt.decode`. -/
inductive JwtError where
  | expired
  | invalid
deriving DecidableEq, Repr

/-- `jwt.decode(token, key, [HS256])`: reject a token signed with another
key, reject an `exp` claim in the past, otherwise return the claims. -/
def jwtDecode (key : String) (now : Nat) (tok : Jwt) : Except JwtError Payload :=
  if tok.key ≠ key then .error .invalid
  else
    match dictGet tok.claims "exp" with
    | some (.time t) => if t < now then .error .expired else .ok tok.claims
    | _ => .ok tok.claims

/-- An HTTP error response (`HTTPException(status_code, detail)`). -/
structure HErr where
  status : Nat
  detail : String
deriving DecidableEq, Repr

/-- A row of the `users` table of the auth service (SQLAlchemy `User`). -/
structure AuthUser where
  id : Nat
  email : String
  google_id : Option String
  name : Option String
  picture : Option String
  is_active : Bool
  email_verified : Bool
deriving DecidableEq, Repr

/-- A row of the `magic_tokens` table (SQLAlchemy `MagicToken`). -/
structure MagicTokenRow where
  token : String
  user_id : Nat
  expires_at : Nat
  used : Bool
deriving DecidableEq, Repr

/-- The auth service database: the two tables plus the autoincrement
counter for user primary keys. -/
structure AuthDb where
  users : List AuthUser
  magic_tokens : List MagicTokenRow
  next_user_id : Nat
deriving DecidableEq, Repr

/-- Modelled from the spec: the SQLAlchemy `models.py` of the auth
service is not under `src/` (only its importers are).  The spec
describes a `MagicToken` as a "single-use credential; belongs to exactly
one User; has expiry and used flag; created on request, consumed on
verify", so a freshly constructed `MagicToken(token=…, user_id=…,
expires_at=…)` has its `used` flag `false`. -/
def MagicTokenRow.fresh (token : String) (uid : Nat) (expires : Nat) : MagicTokenRow :=
  ⟨token, uid, expires, false⟩

/-- The successful auth payload (`AuthResponse` of `schemas.py`; the
serialized user dict is omitted, no claim concerns it). -/
structure AuthResponse where
  access_token : Jwt
  refresh_token : Jwt
  token_type : String
deriving DecidableEq, Repr

/-- `int(s)` on the string claim: Python would raise (an uncaught 500)
on a non-numeric subject, which the callers surface as `none`. -/
def pyInt (s : String) : Option Nat :=
  s.toNat?

/-- Mark the row found by `db.query(MagicToken).filter(token == t).first()`
as used: only the first matching row is the mutated ORM object. -/
def markFirstUsed : List MagicTokenRow → String → List MagicTokenRow
  | [], _ => []
  | r :: rs, tok =>
      if r.token = tok then { r with used := true } :: rs
      else r :: markFirstUsed rs tok

/-- `verify_magic_link` of `magic_link_routes.py` (lines 139–180): look
the token up, reject a missing / used / expired token with HTTP 400,
otherwise mark it used, mark the owner's email verified and mint an
access / refresh token pair. -/
def verify_magic_link (key : String) (db : AuthDb) (now : Nat) (tok : String) :
    Except HErr (AuthDb × AuthResponse) :=
  match db.magic_tokens.find? (fun r => r.token == tok) with
  | none => .error ⟨400, "Invalid or expired magic link"⟩
  | some mt =>
    if mt.used then .error ⟨400, "Magic link has already been used"⟩
    else if mt.expires_at < now then .error ⟨400, "Magic link has expired"⟩
    else
      match db.users.find? (fun u => u.id == mt.user_id) with
      | none => .error ⟨500, "Internal Server Error"⟩
      | some u =>
        let u' := { u with email_verified := true }
        let db' : AuthDb :=
          { db with
            magic_tokens := markFirstUsed db.magic_tokens tok,
            users := db.users.map (fun v => if v.id == u.id then u' else v) }
        let data : Payload := [("sub", .str (toString u.id)), ("email", .str u.email)]
        .ok (db', ⟨create_access_token key now data, create_refresh_token key now data, "bearer"⟩)

/-- `payload.email.lower()`: Python's `str.lower`, embedded as the
character-wise lowering of the underlying character list (structural,
so the kernel can evaluate it on concrete inputs). -/
def pyLower (s : String) : String :=
  ⟨s.data.map Char.toLower⟩

/-- The email message assembled by `send_magic_link_email` of
`email_service.py`: the sign-in link is
`f"{FRONTEND_URL}/dashboard?token={token}"`. -/
structure EmailMsg where
  to_addr : String
  subject : String
  link : String
deriving DecidableEq, Repr

/-- `send_magic_link_email(to_email, token)` of `email_service.py`,
restricted to the message it assembles (the HTTP delivery to the Resend
API is external I/O). -/
def send_magic_link_email (frontend : String) (to_email : String) (token : String) : EmailMsg :=
  ⟨to_email, "Sign in to your account", frontend ++ "/dashboard?token=" ++ token⟩

/-- `request_magic_link` of `magic_link_routes.py` (lines 90–136):
lower-case the email, find or create the user, reject a deactivated
account with HTTP 403, mark all the user's unused magic tokens used,
persist one fresh token expiring 15 minutes from now, and send the
email.  `freshTok` stands for the value drawn by
`secrets.token_urlsafe(32)`. -/
def request_magic_link (frontend : String) (db : AuthDb) (now : Nat)
    (emailRaw : String) (freshTok : String) : Except HErr (AuthDb × EmailMsg) :=
  let email := pyLower emailRaw
  let found := db.users.find? (fun u => u.email == email)
  let user : AuthUser :=
    match found with
    | some u => u
    | none => ⟨db.next_user_id, email, none, none, none, true, false⟩
  let db1 : AuthDb :=
    match found with
    | some _ => db
    | none => { db with users := db.users ++ [user], next_user_id := db.next_user_id + 1 }
  if user.is_active = false then .error ⟨403, "User account is deactivated"⟩
  else
    let db2 : AuthDb :=
      { db1 with magic_tokens := db1.magic_tokens.map (fun r =>
          if r.user_id = user.id ∧ r.used = false then { r with used := true } else r) }
    let db3 : AuthDb :=
      { db2 with magic_tokens :=
          db2.magic_tokens ++ [MagicTokenRow.fresh freshTok user.id (now + MAGIC_LINK_EXPIRE_MINUTES)] }
    .ok (db3, send_magic_link_email frontend email freshTok)

/-- `refresh_access_token` (identical in `auth_routes.py` lines 160–199
and `magic_link_routes.py` lines 183–222): decode the refresh token
(expired / bad signature give HTTP 401), reject a type claim other than
`"refresh"` with HTTP 401, then look the subject up and mint a fresh
token pair. -/
def refresh_access_token (key : String) (db : AuthDb) (now : Nat) (tok : Jwt) :
    Except HErr AuthResponse :=
  match jwtDecode key now tok with
  | .error .expired => .error ⟨401, "Refresh token has expired"⟩
  | .error .invalid => .error ⟨401, "Invalid refresh token"⟩
  | .ok claims =>
    if dictGet claims "type" ≠ some (.str "refresh") then
      .error ⟨401, "Invalid token type"⟩
    else
      match dictGet claims "sub" with
      | some (.str s) =>
        match pyInt s with
        | none => .error ⟨500, "Internal Server Error"⟩
        | some uid =>
          match db.users.find? (fun u => u.id == uid) with
          | none => .error ⟨404, "User not found"⟩
          | some u =>
            if u.is_active = false then .error ⟨403, "User account is deactivated"⟩
            else
              let data : Payload := [("sub", .str (toString u.id)), ("email", .str u.email)]
              .ok ⟨create_access_token key now data, create_refresh_token key now data, "bearer"⟩
      | _ => .error ⟨500, "Internal Server Error"⟩

/-- `get_current_user` (identical in `auth_routes.py` lines 41–76 and
`magic_link_routes.py` lines 52–87), from the extracted bearer token on:
decode (expired / bad signature give HTTP 401), reject a type claim
other than `"access"` with HTTP 401, then resolve the subject (404 when
unknown, 403 when deactivated). -/
def get_current_user (key : String) (db : AuthDb) (now : Nat) (tok : Jwt) :
    Except HErr AuthUser :=
  match jwtDecode key now tok with
  | .error .expired => .error ⟨401, "Token has expired"⟩
  | .error .invalid => .error ⟨401, "Invalid token"⟩
  | .ok claims =>
    if dictGet claims "type" ≠ some (.str "access") then
      .error ⟨401, "Invalid token type"⟩
    else
      match dictGet claims "sub" with
      | some (.str s) =>
        match pyInt s with
        | none => .error ⟨500, "Internal Server Error"⟩
        | some uid =>
          match db.users.find? (fun u => u.id == uid) with
          | none => .error ⟨404, "User not found"⟩
          | some u =>
            if u.is_active = false then .error ⟨403, "User account is deactivated"⟩
            else .ok u
      | _ => .error ⟨500, "Internal Server Error"⟩

/-- The profile dict Google returns to the OAuth callback
(`token.get('userinfo')`). -/
structure GoogleUserInfo where
  sub : String
  email : String
  name : Option String
  picture : Option String
deriving DecidableEq, Repr

/-- Python's `x or y` on optional strings: an absent or empty new value
keeps the old one. -/
def pyOr (new : Option String) (old : Option String) : Option String :=
  match new with
  | some s => if s = "" then old else some s
  | none => old

/-- Replace the user row carrying `u'.id` (the ORM mutation of a fetched
`User` object, committed by `db.commit()`). -/
def updateUser (users : List AuthUser) (u' : AuthUser) : List AuthUser :=
  users.map (fun v => if v.id == u'.id then u' else v)

/-- The profile refresh the callback performs on a user already carrying
the matching `google_id` (`user.name = user_info.get('name') or
user.name`, likewise for the picture; the email gets marked verified). -/
def googleRefresh (info : GoogleUserInfo) (u : AuthUser) : AuthUser :=
  { u with
    name := pyOr info.name u.name,
    picture := pyOr info.picture u.picture,
    email_verified := true }

/-- The linking update for a user matched by email only: the profile
refresh plus storing the presented `google_id`. -/
def linkGoogle (info : GoogleUserInfo) (u : AuthUser) : AuthUser :=
  { u with
    google_id := some info.sub,
    name := pyOr info.name u.name,
    picture := pyOr info.picture u.picture,
    email_verified := true }

/-- `google_callback` of `auth_routes.py` (lines 88–157), from the
fetched `user_info` on: match by `google_id` first, then by email
(linking the Google account to an existing magic-link user), otherwise
create a new user; a deactivated account redirects to the error page
before anything is committed.  `.error` is the error redirect. -/
def google_callback (db : AuthDb) (info : GoogleUserInfo) :
    Except String (AuthDb × Nat) :=
  match db.users.find? (fun u => u.google_id == some info.sub) with
  | some u =>
    let u' := googleRefresh info u
    if u'.is_active = false then .error "User account is deactivated"
    else .ok ({ db with users := updateUser db.users u' }, u'.id)
  | none =>
    match db.users.find? (fun u => u.email == info.email) with
    | some u =>
      let u' := linkGoogle info u
      if u'.is_active = false then .error "User account is deactivated"
      else .ok ({ db with users := updateUser db.users u' }, u'.id)
    | none =>
      let u : AuthUser :=
        ⟨db.next_user_id, info.email, some info.sub, info.name, info.picture, true, true⟩
      .ok ({ db with users := db.users ++ [u], next_user_id := db.next_user_id + 1 }, u.id)

/-- Database well-formedness maintained by the schema: primary keys are
unique and below the autoincrement counter, and `User.email` carries a
unique constraint. -/
abbrev AuthDb.wf (db : AuthDb) : Prop :=
  (db.users.map (fun u => u.id)).Nodup ∧
  (db.users.map (fun u => u.email)).Nodup ∧
  ∀ u ∈ db.users, u.id < db.next_user_id

/-- Foreign-key integrity: every magic token belongs to a stored user. -/
abbrev AuthDb.fkOk (db : AuthDb) : Prop :=
  ∀ r ∈ db.magic_tokens, ∃ u ∈ db.users, u.id = r.user_id

/-- A magic token a user could still redeem at time `now`. -/
abbrev usableAt (now : Nat) (r : MagicTokenRow) : Prop :=
  r.used = false ∧ ¬ r.expires_at < now

/-- The unused magic tokens a user owns. -/
def unusedTokensOf (db : AuthDb) (uid : Nat) : List MagicTokenRow :=
  db.magic_tokens.filter (fun r => r.user_id == uid && r.used == false)

end EnterpriseAuth

namespace EnterpriseTasks

/-- `TaskStatus` of `task_models.py`. -/
inductive TaskStatus where
  | todo
  | in_progress
  | in_review
  | done
  | blocked
deriving DecidableEq, Repr

/-- `TaskPriority` of `task_models.py`. -/
inductive TaskPriority where
  | low
  | medium
  | high
  | critical
deriving DecidableEq, Repr

/-- The stored `CharField` value of a status (`TaskStatus.choices`). -/
def statusValue : TaskStatus → String
  | .todo => "todo"
  | .in_progress => "in_progress"
  | .in_review => "in_review"
  | .done => "done"
  | .blocked => "blocked"

/-- The stored `CharField` value of a priority (`TaskPriority.choices`). -/
def priorityValue : TaskPriority → String
  | .low => "low"
  | .medium => "medium"
  | .high => "high"
  | .critical => "critical"

/-- Membership test `new_status in dict(TaskStatus.choices)` together
with the resulting enum member. -/
def statusFromString (s : String) : Option TaskStatus :=
  if s = "todo" then some .todo
  else if s = "in_progress" then some .in_progress
  else if s = "in_review" then some .in_review
  else if s = "done" then some .done
  else if s = "blocked" then some .blocked
  else none

/-- A row of the `Task` table (`task_models.py`), restricted to the
columns the verified behaviour reads. -/
structure TaskRow where
  id : Nat
  project : Nat
  status : TaskStatus
  priority : TaskPriority
  due_date : Option Nat
  completed_at : Option Nat
deriving DecidableEq, Repr

/-- A row of the `TaskAssignment` table (`task_models.py`).  `id` is the
primary key; rows are stored in insertion order, so ascending `id` order
and list order coincide (`first()` on the unordered queryset sorts by
`pk`). -/
structure Assignment where
  id : Nat
  task : Nat
  assignee : Nat
  is_lead : Bool
deriving DecidableEq, Repr

/-- A row of the `ProjectMember` table (`project_models.py`); the `role`
column plays no part in the verified behaviour. -/
structure ProjectMemberRow where
  project : Nat
  user : Nat
deriving DecidableEq, Repr

/-- A Django auth user, restricted to what the task endpoints read. -/
structure DjUser where
  id : Nat
  is_staff : Bool
deriving DecidableEq, Repr

/-- The Django database state the task endpoints touch. -/
structure TaskDb where
  tasks : List TaskRow
  assignments : List Assignment
  members : List ProjectMemberRow
  users : List DjUser
  next_assignment_id : Nat
deriving DecidableEq, Repr

/-- `Task.save` of `task_models.py` (lines 144–150): entering status
`done` with no completion timestamp stamps `timezone.now()`; leaving
`done` clears the timestamp. -/
def taskSave (now : Nat) (t : TaskRow) : TaskRow :=
  if t.status = .done ∧ t.completed_at = none then { t with completed_at := some now }
  else if t.status ≠ .done ∧ t.completed_at ≠ none then { t with completed_at := none }
  else t

/-- The `change-status` action of `TaskViewSet` (lines 113–137), acting
on the fetched task: an absent (falsy) or unknown status string is a 400,
otherwise the status is set and the task saved. -/
def change_status (now : Nat) (t : TaskRow) (raw : String) :
    Except EnterpriseAuth.HErr TaskRow :=
  if raw = "" then .error ⟨400, "Status is required"⟩
  else
    match statusFromString raw with
    | none => .error ⟨400, "Invalid status"⟩
    | some s => .ok (taskSave now { t with status := s })

/-- `TaskSerializer.update` of `task_serializers.py` (lines 101–117)
followed by the model save that `ModelSerializer.update` performs: a
transition into `done` stamps `completed_at`, a transition out of `done`
clears it, then the instance fields are assigned and the instance
saved. -/
def serializerUpdate (now : Nat) (t : TaskRow) (newStatus : Option TaskStatus) : TaskRow :=
  let t1 :=
    match newStatus with
    | some s =>
      let t' :=
        if s = .done ∧ t.status ≠ .done then { t with completed_at := some now }
        else if t.status = .done ∧ s ≠ .done then { t with completed_at := none }
        else t
      { t' with status := s }
    | none => t
  taskSave now t1

/-- `TaskAssignment.objects.filter(task=…).exists()`. -/
def hasAssignment (db : TaskDb) (taskId : Nat) : Bool :=
  db.assignments.any (fun a => a.task == taskId)

/-- `task.project.project_members.filter(user=user).exists()`. -/
def isMember (db : TaskDb) (projectId : Nat) (userId : Nat) : Bool :=
  db.members.any (fun m => m.project == projectId && m.user == userId)

/-- `TaskAssignment.save` of `task_models.py` (lines 50–54) on a fresh
instance: the assignment is inserted, forced to be the lead when the
task has no assignment yet. -/
def assignmentCreate (db : TaskDb) (taskId userId : Nat) (lead : Bool) : TaskDb :=
  let lead' := if hasAssignment db taskId then lead else true
  { db with
    assignments := db.assignments ++ [⟨db.next_assignment_id, taskId, userId, lead'⟩],
    next_assignment_id := db.next_assignment_id + 1 }

/-- `TaskAssignment.save` on an already-persisted instance (`pk` set):
a plain row update. -/
def assignmentUpdate (db : TaskDb) (a : Assignment) : TaskDb :=
  { db with assignments := db.assignments.map (fun b => if b.id == a.id then a else b) }

/-- The outcome of a Django REST Framework view: the (autocommitted)
database state and the error response, when any. -/
structure ViewResult where
  db : TaskDb
  err : Option EnterpriseAuth.HErr
deriving DecidableEq, Repr

/-- The `assign` action of `TaskViewSet` (`task_views.py` lines
139–182): resolve task and user, require project membership,
`update_or_create` the assignment with the requested `is_lead` flag
(the model save forcing the very first assignment to be the lead), then
the view's own first-assignment fix-up, which re-reads
`task.assignments.exists()` after the insert and therefore never
fires. -/
def assign_task (db : TaskDb) (taskId : Nat) (userId : Option Nat) (is_lead : Bool) :
    ViewResult :=
  match db.tasks.find? (fun t => t.id == taskId) with
  | none => ⟨db, some ⟨404, "Not found"⟩⟩
  | some task =>
    match userId with
    | none => ⟨db, some ⟨400, "user_id is required"⟩⟩
    | some uid =>
      match db.users.find? (fun u => u.id == uid) with
      | none => ⟨db, some ⟨404, "User not found"⟩⟩
      | some _ =>
        if isMember db task.project uid = false then
          ⟨db, some ⟨400, "User is not a member of this project"⟩⟩
        else
          match db.assignments.find? (fun a => a.task == taskId && a.assignee == uid) with
          | some a => ⟨assignmentUpdate db { a with is_lead := is_lead }, none⟩
          | none =>
            let newId := db.next_assignment_id
            let db1 := assignmentCreate db taskId uid is_lead
            if hasAssignment db1 taskId = false then
              ⟨{ db1 with assignments := db1.assignments.map (fun b =>
                  if b.id == newId then { b with is_lead := true } else b) }, none⟩
            else ⟨db1, none⟩

/-- The `unassign` action of `TaskViewSet` (`task_views.py` lines
184–216): delete the assignment (400 when absent); when the deleted
assignee was the lead and assignees remain, promote the first remaining
assignment (lowest `pk`) to lead. -/
def unassign_task (db : TaskDb) (taskId : Nat) (userId : Option Nat) : ViewResult :=
  match db.tasks.find? (fun t => t.id == taskId) with
  | none => ⟨db, some ⟨404, "Not found"⟩⟩
  | some _ =>
    match userId with
    | none => ⟨db, some ⟨400, "user_id is required"⟩⟩
    | some uid =>
      match db.assignments.find? (fun a => a.task == taskId && a.assignee == uid) with
      | none => ⟨db, some ⟨400, "User is not assigned to this task"⟩⟩
      | some a =>
        let db1 : TaskDb :=
          { db with assignments := db.assignments.filter (fun b => b.id != a.id) }
        if a.is_lead && hasAssignment db1 taskId then
          match db1.assignments.find? (fun b => b.task == taskId) with
          | some b => ⟨assignmentUpdate db1 { b with is_lead := true }, none⟩
          | none => ⟨db1, none⟩
        else ⟨db1, none⟩

/-- The `set-lead` action of `TaskViewSet` (`task_views.py` lines
218–247): `task.assignments.update(is_lead=False)` commits at once, so
the existing lead is cleared even when the requested user turns out not
to be assigned (400). -/
def set_lead_assignee (db : TaskDb) (taskId : Nat) (userId : Option Nat) : ViewResult :=
  match db.tasks.find? (fun t => t.id == taskId) with
  | none => ⟨db, some ⟨404, "Not found"⟩⟩
  | some _ =>
    match userId with
    | none => ⟨db, some ⟨400, "user_id is required"⟩⟩
    | some uid =>
      let db1 : TaskDb :=
        { db with assignments := db.assignments.map (fun a =>
            if a.task == taskId then { a with is_lead := false } else a) }
      match db1.assignments.find? (fun a => a.task == taskId && a.assignee == uid) with
      | none => ⟨db1, some ⟨400, "User is not assigned to this task"⟩⟩
      | some a => ⟨assignmentUpdate db1 { a with is_lead := true }, none⟩

/-- The assignment-mutating requests of `TaskViewSet`. -/
inductive TaskOp where
  | assign (taskId : Nat) (userId : Option Nat) (is_lead : Bool)
  | unassign (taskId : Nat) (userId : Option Nat)
  | setLead (taskId : Nat) (userId : Option Nat)
deriving DecidableEq, Repr

/-- Dispatch one request and keep the committed state (error responses
included: Django autocommits each write as it happens). -/
def runOp (db : TaskDb) : TaskOp → TaskDb
  | .assign t u l => (assign_task db t u l).db
  | .unassign t u => (unassign_task db t u).db
  | .setLead t u => (set_lead_assignee db t u).db

/-- Run a request sequence. -/
def runOps (db : TaskDb) (ops : List TaskOp) : TaskDb :=
  ops.foldl runOp db

/-- At most one of the task's assignments carries `is_lead`. -/
abbrev atMostOneLead (db : TaskDb) (t : Nat) : Prop :=
  ∀ a ∈ db.assignments, ∀ b ∈ db.assignments,
    a.task = t → a.is_lead = true → b.task = t → b.is_lead = true → a = b

/-- Some assignment of the task carries `is_lead`. -/
abbrev someLead (db : TaskDb) (t : Nat) : Prop :=
  ∃ a ∈ db.assignments, a.task = t ∧ a.is_lead = true

/-- Assignment primary keys are unique and below the autoincrement
counter. -/
abbrev TaskDb.wf (db : TaskDb) : Prop :=
  (db.assignments.map (fun a => a.id)).Nodup ∧
  ∀ a ∈ db.assignments, a.id < db.next_assignment_id

/-- The query parameters `TaskViewSet.get_queryset` reads. -/
structure QueryParams where
  project_id : Option Nat
  assignee_id : Option Nat
  status : Option String
  priority : Option String
  lead_assignee_id : Option Nat
  is_overdue : String
deriving DecidableEq, Repr

/-- A request with no filtering parameters. -/
def QueryParams.noFilter : QueryParams :=
  ⟨none, none, none, none, none, ""⟩

/-- The filter chain of `TaskViewSet.get_queryset` (`task_views.py`
lines 29–74) before the staff check: each supplied query parameter
narrows the queryset. -/
def baseQueryset (db : TaskDb) (p : QueryParams) (now : Nat) : List TaskRow :=
  let q1 :=
    match p.project_id with
    | none => db.tasks
    | some pid => db.tasks.filter (fun t => t.project == pid)
  let q2 :=
    match p.assignee_id with
    | none => q1
    | some uid => q1.filter (fun t =>
        db.assignments.any (fun a => a.task == t.id && a.assignee == uid))
  let q3 :=
    match p.status with
    | none => q2
    | some s => q2.filter (fun t => statusValue t.status == s)
  let q4 :=
    match p.priority with
    | none => q3
    | some s => q3.filter (fun t => priorityValue t.priority == s)
  let q5 :=
    match p.lead_assignee_id with
    | none => q4
    | some uid => q4.filter (fun t =>
        db.assignments.any (fun a => a.task == t.id && a.assignee == uid && a.is_lead))
  if p.is_overdue.toLower == "true" then
    q5.filter (fun t =>
      (match t.due_date with
       | some d => d < now
       | none => false) &&
      (t.status == .todo || t.status == .in_progress ||
       t.status == .in_review || t.status == .blocked))
  else q5

/-- `TaskViewSet.get_queryset` (`task_views.py` lines 29–81): the filter
chain, then — for non-staff users only — the restriction to tasks whose
project has the requesting user among its members. -/
def get_queryset (db : TaskDb) (user : DjUser) (p : QueryParams) (now : Nat) :
    List TaskRow :=
  if user.is_staff then baseQueryset db p now
  else (baseQueryset db p now).filter (fun t => isMember db t.project user.id)

/-- The retrieve endpoint: `get_object` resolves the primary key inside
`get_queryset`, so a task outside the visible queryset is a 404. -/
def retrieve_task (db : TaskDb) (user : DjUser) (p : QueryParams) (now : Nat)
    (pk : Nat) : Option TaskRow :=
  (get_queryset db user p now).find? (fun t => t.id == pk)

end EnterpriseTasks

namespace EnterpriseAuth

theorem dictGet_append (l1 l2 : Payload) (k : String) :
    dictGet (l1 ++ l2) k =
      match dictGet l1 k with
      | some v => some v
      | none => dictGet l2 k := by
  induction l1 with
  | nil => simp [dictGet]
  | cons p rest ih =>
    by_cases h : k = p.1
    · simp [dictGet, h]
    · simp [dictGet, h, ih]

theorem dictGet_filter_self (d : Payload) (k : String) :
    dictGet (d.filter (fun p => p.1 != k)) k = none := by
  induction d with
  | nil => simp [dictGet]
  | cons p rest ih =>
    by_cases h : p.1 = k
    · simp [List.filter, h, ih]
    · simp only [List.filter_cons]
      have hb : (p.1 != k) = true := by simp [h]
      simp [hb, dictGet, Ne.symm h, ih]

theorem dictGet_filter_other (d : Payload) (k k' : String) (h : k' ≠ k) :
    dictGet (d.filter (fun p => p.1 != k)) k' = dictGet d k' := by
  induction d with
  | nil => simp
  | cons p rest ih =>
    by_cases hp : p.1 = k
    · have hk' : k' ≠ p.1 := by simp [hp, h]
      simp [List.filter, hp, ih, dictGet, hk', h]
    · simp only [List.filter_cons]
      have hb : (p.1 != k) = true := by simp [hp]
      by_cases hk : k' = p.1
      · simp [hb, dictGet, hk]
      · simp [hb, dictGet, hk, ih]

theorem dictGet_dictSet_same (d : Payload) (k : String) (v : ClaimVal) :
    dictGet (dictSet d k v) k = some v := by
  simp [dictSet, dictGet_append, dictGet_filter_self, dictGet]

theorem dictGet_dictSet_other (d : Payload) (k k' : String) (v : ClaimVal) (h : k' ≠ k) :
    dictGet (dictSet d k v) k' = dictGet d k' := by
  simp only [dictSet, dictGet_append, dictGet_filter_other d k k' h]
  cases hd : dictGet d k' with
  | some w => rfl
  | none => simp [dictGet, h]

/-- **C5.** `create_access_token` returns a token signed with the
issuer's key whose payload carries the input data updated with a type
claim `"access"` and an expiry exactly 60 minutes after issuance;
`create_refresh_token` likewise with type `"refresh"` and an expiry
exactly 30 days (30 · 1440 minutes) after issuance. -/
theorem token_issuer_payloads (key : String) (now : Nat) (data : Payload) :
    (create_access_token key now data).key = key ∧
    dictGet (create_access_token key now data).claims "type" = some (.str "access") ∧
    dictGet (create_access_token key now data).claims "exp" = some (.time (now + 60)) ∧
    (∀ k, k ≠ "exp" → k ≠ "type" →
      dictGet (create_access_token key now data).claims k = dictGet data k) ∧
    (create_refresh_token key now data).key = key ∧
    dictGet (create_refresh_token key now data).claims "type" = some (.str "refresh") ∧
    dictGet (create_refresh_token key now data).claims "exp" = some (.time (now + 30 * 1440)) ∧
    (∀ k, k ≠ "exp" → k ≠ "type" →
      dictGet (create_refresh_token key now data).claims k = dictGet data k) := by
  refine ⟨rfl, ?_, ?_, ?_, rfl, ?_, ?_, ?_⟩
  · exact dictGet_dictSet_same _ _ _
  · rw [create_access_token]
    show dictGet (dictSet _ "type" _) "exp" = _
    rw [dictGet_dictSet_other _ _ _ _ (by decide), dictGet_dictSet_same]
    rfl
  · intro k hk1 hk2
    rw [create_access_token]
    show dictGet (dictSet _ "type" _) k = _
    rw [dictGet_dictSet_other _ _ _ _ hk2, dictGet_dictSet_other _ _ _ _ hk1]
  · exact dictGet_dictSet_same _ _ _
  · rw [create_refresh_token]
    show dictGet (dictSet _ "type" _) "exp" = _
    rw [dictGet_dictSet_other _ _ _ _ (by decide), dictGet_dictSet_same]
    rfl
  · intro k hk1 hk2
    rw [create_refresh_token]
    show dictGet (dictSet _ "type" _) k = _
    rw [dictGet_dictSet_other _ _ _ _ hk2, dictGet_dictSet_other _ _ _ _ hk1]

/-- Witness for C5 at a concrete subject claim. -/
theorem token_issuer_payloads_witness :
    dictGet (create_access_token "k" 7 [("sub", ClaimVal.str "1")]).claims "sub"
      = some (ClaimVal.str "1") ∧
    dictGet (create_refresh_token "k" 7 [("sub", ClaimVal.str "1")]).claims "exp"
      = some (ClaimVal.time (7 + 30 * 1440)) :=
  ⟨(token_issuer_payloads "k" 7 [("sub", ClaimVal.str "1")]).2.2.2.1 "sub"
      (by decide) (by decide),
   (token_issuer_payloads "k" 7 [("sub", ClaimVal.str "1")]).2.2.2.2.2.2.1⟩

end EnterpriseAuth

namespace EnterpriseTasks

theorem taskSave_completed_iff (now : Nat) (t : TaskRow) :
    (taskSave now t).completed_at ≠ none ↔ (taskSave now t).status = .done := by
  by_cases h1 : t.status = .done <;>
    cases h2 : t.completed_at <;>
      simp [taskSave, h1, h2]

/-- **C3.** After every task save — the model save, the `change-status`
action and the serializer update — `completed_at` is non-null exactly
when the status is `done`; entering `done` with no completion timestamp
stamps the current time, and leaving `done` clears the timestamp. -/
theorem completed_at_synchronized (now : Nat) (t : TaskRow) :
    ((taskSave now t).completed_at ≠ none ↔ (taskSave now t).status = .done) ∧
    (t.status = .done → t.completed_at = none → (taskSave now t).completed_at = some now) ∧
    (t.status ≠ .done → (taskSave now t).completed_at = none) ∧
    (∀ raw t', change_status now t raw = .ok t' →
      (t'.completed_at ≠ none ↔ t'.status = .done)) ∧
    (∀ s, ((serializerUpdate now t s).completed_at ≠ none ↔
      (serializerUpdate now t s).status = .done)) ∧
    (t.status ≠ .done → (serializerUpdate now t (some .done)).completed_at = some now) ∧
    (∀ s, s ≠ .done → (serializerUpdate now t (some s)).completed_at = none) := by
  refine ⟨taskSave_completed_iff now t, ?_, ?_, ?_, ?_, ?_, ?_⟩
  · intro h1 h2
    simp [taskSave, h1, h2]
  · intro h1
    cases h2 : t.completed_at <;> simp [taskSave, h1, h2]
  · intro raw t' h
    rw [change_status] at h
    split at h
    · exact absurd h (by simp)
    · split at h
      · exact absurd h (by simp)
      · cases h
        exact taskSave_completed_iff now _
  · intro s
    exact taskSave_completed_iff now _
  · intro h1
    cases h2 : t.completed_at <;> simp [serializerUpdate, taskSave, h1, h2]
  · intro s hs
    by_cases h1 : t.status = .done <;>
      cases h2 : t.completed_at <;>
        simp [serializerUpdate, taskSave, h1, h2, hs]

/-- Witness for C3: a `todo` task moved to `done` via the status action
gets stamped, and back to `todo` gets cleared. -/
theorem completed_at_synchronized_witness :
    (change_status 9 ⟨1, 1, .todo, .medium, none, none⟩ "done"
      = .ok ⟨1, 1, .done, .medium, none, some 9⟩) ∧
    (serializerUpdate 11 ⟨1, 1, .done, .medium, none, some 9⟩ (some .todo)).completed_at
      = none :=
  ⟨rfl,
   (completed_at_synchronized 11 ⟨1, 1, .done, .medium, none, some 9⟩).2.2.2.2.2.2
      .todo (by decide)⟩

end EnterpriseTasks

namespace EnterpriseAuth

/-- **C6.** The two token kinds are not interchangeable: a token signed
with the service key whose `type` claim is not `"refresh"` makes
`refresh_access_token` answer HTTP 401 without issuing tokens, and one
whose `type` claim is not `"access"` makes `get_current_user` (hence the
`/me` endpoints) answer HTTP 401. -/
theorem token_types_not_interchangeable (key : String) (db : AuthDb) (now : Nat)
    (tok : Jwt) (hkey : tok.key = key) :
    (dictGet tok.claims "type" ≠ some (.str "refresh") →
      ∃ e, refresh_access_token key db now tok = .error e ∧ e.status = 401) ∧
    (dictGet tok.claims "type" ≠ some (.str "access") →
      ∃ e, get_current_user key db now tok = .error e ∧ e.status = 401) := by
  constructor
  · intro hty
    rw [refresh_access_token, jwtDecode, hkey]
    simp only [ne_eq, not_true_eq_false, if_false]
    cases hexp : dictGet tok.claims "exp" with
    | none => exact ⟨⟨401, "Invalid token type"⟩, by simp [hty], rfl⟩
    | some v =>
      cases v with
      | str s => exact ⟨⟨401, "Invalid token type"⟩, by simp [hty], rfl⟩
      | time texp =>
        by_cases hlt : texp < now
        · exact ⟨⟨401, "Refresh token has expired"⟩, by simp [hlt], rfl⟩
        · exact ⟨⟨401, "Invalid token type"⟩, by simp [hlt, hty], rfl⟩
  · intro hty
    rw [get_current_user, jwtDecode, hkey]
    simp only [ne_eq, not_true_eq_false, if_false]
    cases hexp : dictGet tok.claims "exp" with
    | none => exact ⟨⟨401, "Invalid token type"⟩, by simp [hty], rfl⟩
    | some v =>
      cases v with
      | str s => exact ⟨⟨401, "Invalid token type"⟩, by simp [hty], rfl⟩
      | time texp =>
        by_cases hlt : texp < now
        · exact ⟨⟨401, "Token has expired"⟩, by simp [hlt], rfl⟩
        · exact ⟨⟨401, "Invalid token type"⟩, by simp [hlt, hty], rfl⟩

/-- Witness for C6: a fresh access token is turned away by the refresh
endpoint, a fresh refresh token by the current-user dependency. -/
theorem token_types_not_interchangeable_witness :
    (∃ e, refresh_access_token "k" ⟨[], [], 1⟩ 0 (create_access_token "k" 0 [])
        = .error e ∧ e.status = 401) ∧
    (∃ e, get_current_user "k" ⟨[], [], 1⟩ 0 (create_refresh_token "k" 0 [])
        = .error e ∧ e.status = 401) :=
  ⟨(token_types_not_interchangeable "k" ⟨[], [], 1⟩ 0
      (create_access_token "k" 0 []) rfl).1 (by decide),
   (token_types_not_interchangeable "k" ⟨[], [], 1⟩ 0
      (create_refresh_token "k" 0 []) rfl).2 (by decide)⟩

theorem find?_markFirstUsed (l : List MagicTokenRow) (tok : String)
    (mt : MagicTokenRow) (h : l.find? (fun r => r.token == tok) = some mt) :
    (markFirstUsed l tok).find? (fun r => r.token == tok)
      = some { mt with used := true } := by
  induction l with
  | nil => simp at h
  | cons r rs ih =>
    by_cases hr : r.token = tok
    · rw [List.find?_cons_of_pos _ (by simp [hr])] at h
      cases h
      rw [markFirstUsed, if_pos hr]
      exact List.find?_cons_of_pos _ (by simp [hr])
    · rw [List.find?_cons_of_neg _ (by simp [hr])] at h
      rw [markFirstUsed, if_neg hr]
      rw [List.find?_cons_of_neg _ (by simp [hr])]
      exact ih h

/-- **C1 (amended).** `verify_magic_link` succeeds at most once and only
while the token is not yet expired: it returns a token pair exactly when
the matching `MagicToken` exists, its `used` flag is false, and its
`expires_at` is **no earlier than** the current time (the code rejects
with `expires_at < utcnow()`, so a token checked in the very minute of
its expiry is still accepted); a successful verification marks the token
used, so any later verify with the same token fails with HTTP 400. -/
theorem magic_link_single_use (key : String) (db : AuthDb) (now : Nat) (tok : String)
    (hfk : db.fkOk) :
    ((verify_magic_link key db now tok).isOk = true ↔
      ∃ mt, db.magic_tokens.find? (fun r => r.token == tok) = some mt ∧
        mt.used = false ∧ ¬ mt.expires_at < now) ∧
    (∀ db' resp, verify_magic_link key db now tok = .ok (db', resp) →
      ∀ now', ∃ e, verify_magic_link key db' now' tok = .error e ∧ e.status = 400) := by
  constructor
  · cases hf : db.magic_tokens.find? (fun r => r.token == tok) with
    | none => simp [verify_magic_link, hf, Except.isOk, Except.toBool]
    | some mt =>
      by_cases hused : mt.used
      · simp [verify_magic_link, hf, hused, Except.isOk, Except.toBool]
      · by_cases hexp : mt.expires_at < now
        · simp [verify_magic_link, hf, hused, hexp, Except.isOk, Except.toBool]
        · have hmem := List.mem_of_find?_eq_some hf
          obtain ⟨u, hu, huid⟩ := hfk mt hmem
          have : (db.users.find? (fun v => v.id == mt.user_id)).isSome := by
            rw [List.find?_isSome]
            exact ⟨u, hu, by simp [huid]⟩
          cases hfu : db.users.find? (fun v => v.id == mt.user_id) with
          | none => rw [hfu] at this; simp at this
          | some v =>
            simp only [verify_magic_link, hf, hused, hexp, if_false, hfu]
            simp only [Bool.false_eq_true, if_false]
            constructor
            · intro _
              exact ⟨mt, rfl, Bool.not_eq_true _ ▸ (by simpa using hused), hexp⟩
            · intro _
              rfl
  · intro db' resp h now'
    rw [verify_magic_link] at h
    split at h
    · exact absurd h (by simp)
    · rename_i mt hf
      split at h
      · exact absurd h (by simp)
      · split at h
        · exact absurd h (by simp)
        · split at h
          · exact absurd h (by simp)
          · rw [Except.ok.injEq, Prod.mk.injEq] at h
            obtain ⟨h1, -⟩ := h
            refine ⟨⟨400, "Magic link has already been used"⟩, ?_, rfl⟩
            have hdb' : db'.magic_tokens = markFirstUsed db.magic_tokens tok := by
              rw [← h1]
            rw [verify_magic_link, hdb', find?_markFirstUsed _ _ _ hf]
            rfl

/-- Witness for C1: a stored unused token verified before expiry succeeds. -/
theorem magic_link_single_use_witness :
    (verify_magic_link "k" ⟨[⟨1, "a@b", none, none, none, true, false⟩],
        [⟨"t", 1, 10, false⟩], 2⟩ 3 "t").isOk = true :=
  (magic_link_single_use "k" ⟨[⟨1, "a@b", none, none, none, true, false⟩],
      [⟨"t", 1, 10, false⟩], 2⟩ 3 "t" (by decide)).1.mpr
    ⟨⟨"t", 1, 10, false⟩, by decide, rfl, by decide⟩

/-- Counterexample to C1 as stated: at the very minute of expiry
(`now = expires_at = 5`) verification still succeeds, although
`expires_at` is not *later* than the current time — the code only
rejects `expires_at < now`. -/
theorem magic_link_strict_expiry_cex :
    (verify_magic_link "k" ⟨[⟨1, "a@b", none, none, none, true, false⟩],
        [⟨"t", 1, 5, false⟩], 2⟩ 5 "t").isOk = true ∧
    ¬ (5 : Nat) < (⟨"t", 1, 5, false⟩ : MagicTokenRow).expires_at := by
  constructor
  · decide
  · decide

/-- The bulk update `db.query(MagicToken).filter(user_id == uid,
used == False).update({"used": True})` of `request_magic_link`, as its
action on one row. -/
def invalidateFor (uid : Nat) (r : MagicTokenRow) : MagicTokenRow :=
  if r.user_id = uid ∧ r.used = false then { r with used := true } else r

/-- How many unused magic tokens a user owns. -/
def unusedCount (db : AuthDb) (uid : Nat) : Nat :=
  (unusedTokensOf db uid).length

/-- The magic tokens a user could still redeem at time `now`
(unused and unexpired in the sense of `verify_magic_link`). -/
def usableTokensOf (db : AuthDb) (now : Nat) (uid : Nat) : List MagicTokenRow :=
  db.magic_tokens.filter
    (fun r => r.user_id == uid && r.used == false && Nat.ble now r.expires_at)

theorem filter_map_invalidate_self (l : List MagicTokenRow) (uid : Nat) :
    (l.map (invalidateFor uid)).filter
        (fun r => r.user_id == uid && r.used == false) = [] := by
  rw [List.filter_eq_nil_iff]
  intro r hr
  obtain ⟨s, hs, rfl⟩ := List.mem_map.mp hr
  by_cases h1 : s.user_id = uid <;> by_cases h2 : s.used = false <;>
    simp [invalidateFor, h1, h2]

theorem filter_map_invalidate_other (l : List MagicTokenRow) (uid uid' : Nat)
    (h : uid' ≠ uid) :
    (l.map (invalidateFor uid)).filter
        (fun r => r.user_id == uid' && r.used == false)
      = l.filter (fun r => r.user_id == uid' && r.used == false) := by
  have hne : uid ≠ uid' := fun hc => h hc.symm
  induction l with
  | nil => rfl
  | cons r rs ih =>
    simp only [List.map_cons, List.filter_cons]
    by_cases h1 : r.user_id = uid
    · have hL : ((invalidateFor uid r).user_id == uid' &&
          (invalidateFor uid r).used == false) = false := by
        by_cases h2 : r.used = false <;>
          simp [invalidateFor, h1, h2, hne]
      have hR : (r.user_id == uid' && r.used == false) = false := by
        simp [h1, hne]
      rw [hL, hR]
      simp only [Bool.false_eq_true, if_false]
      exact ih
    · have hid : invalidateFor uid r = r := by
        simp [invalidateFor, h1]
      rw [hid]
      by_cases hc : (r.user_id == uid' && r.used == false) = true
      · rw [if_pos hc, if_pos hc, ih]
      · rw [if_neg hc, if_neg hc]
        exact ih

theorem length_filter_markFirstUsed (l : List MagicTokenRow) (tok : String)
    (uid : Nat) :
    ((markFirstUsed l tok).filter
        (fun r => r.user_id == uid && r.used == false)).length
      ≤ (l.filter (fun r => r.user_id == uid && r.used == false)).length := by
  induction l with
  | nil => exact Nat.le_refl _
  | cons r rs ih =>
    by_cases hr : r.token = tok
    · rw [markFirstUsed, if_pos hr]
      by_cases hc : (r.user_id == uid && r.used == false) = true
      · simp only [List.filter_cons]
        have : (({ r with used := true } : MagicTokenRow).user_id == uid &&
            ({ r with used := true } : MagicTokenRow).used == false) = false := by
          simp
        simp only [this, hc]
        simp only [if_true, if_false, List.length_cons]
        exact Nat.le_succ_of_le (Nat.le_refl _)
      · simp only [List.filter_cons]
        have : (({ r with used := true } : MagicTokenRow).user_id == uid &&
            ({ r with used := true } : MagicTokenRow).used == false) = false := by
          simp
        simp only [this, hc]
        exact Nat.le_refl _
    · rw [markFirstUsed, if_neg hr]
      by_cases hc : (r.user_id == uid && r.used == false) = true
      · simp only [List.filter_cons, hc, if_true, List.length_cons]
        exact Nat.succ_le_succ ih
      · simp only [List.filter_cons, hc]
        exact ih

theorem verify_ok_tokens (key : String) (db : AuthDb) (now : Nat) (tok : String)
    (db' : AuthDb) (resp : AuthResponse)
    (h : verify_magic_link key db now tok = .ok (db', resp)) :
    db'.magic_tokens = markFirstUsed db.magic_tokens tok := by
  rw [verify_magic_link] at h
  split at h
  · exact absurd h (by simp)
  · split at h
    · exact absurd h (by simp)
    · split at h
      · exact absurd h (by simp)
      · split at h
        · exact absurd h (by simp)
        · rw [Except.ok.injEq, Prod.mk.injEq] at h
          obtain ⟨h1, -⟩ := h
          rw [← h1]

theorem request_ok_cases (frontend : String) (db : AuthDb) (now : Nat)
    (emailRaw freshTok : String) (db' : AuthDb) (msg : EmailMsg)
    (h : request_magic_link frontend db now emailRaw freshTok = .ok (db', msg)) :
    msg = send_magic_link_email frontend (pyLower emailRaw) freshTok ∧
    ∃ uid,
      db'.magic_tokens = db.magic_tokens.map (invalidateFor uid)
          ++ [MagicTokenRow.fresh freshTok uid (now + MAGIC_LINK_EXPIRE_MINUTES)] ∧
      ((∃ u, db.users.find? (fun v => v.email == pyLower emailRaw) = some u ∧
          u.is_active = true ∧ uid = u.id ∧ db'.users = db.users ∧
          db'.next_user_id = db.next_user_id) ∨
       (db.users.find? (fun v => v.email == pyLower emailRaw) = none ∧
          uid = db.next_user_id ∧
          db'.users = db.users
            ++ [⟨db.next_user_id, pyLower emailRaw, none, none, none, true, false⟩] ∧
          db'.next_user_id = db.next_user_id + 1)) := by
  cases hfound : db.users.find? (fun v => v.email == pyLower emailRaw) with
  | some u =>
    simp only [request_magic_link, hfound] at h
    split at h
    · exact absurd h (by simp)
    · rename_i hact
      rw [Except.ok.injEq, Prod.mk.injEq] at h
      obtain ⟨h1, h2⟩ := h
      refine ⟨h2.symm, u.id, ?_, .inl ⟨u, rfl, ?_, rfl, ?_, ?_⟩⟩
      · rw [← h1]
        rfl
      · cases hb : u.is_active with
        | true => rfl
        | false => exact absurd hb hact
      · rw [← h1]
      · rw [← h1]
  | none =>
    simp only [request_magic_link, hfound] at h
    split at h
    · exact absurd h (by simp)
    · rw [Except.ok.injEq, Prod.mk.injEq] at h
      obtain ⟨h1, h2⟩ := h
      refine ⟨h2.symm, db.next_user_id, ?_, .inr ⟨rfl, rfl, ?_, ?_⟩⟩
      · rw [← h1]
        rfl
      · rw [← h1]
      · rw [← h1]

/-- **C9 (amended).** For every submitted email that does not belong to a
deactivated account, `request_magic_link` persists exactly one new
`MagicToken` for the user with that email lower-cased — creating an
active, unverified account when none exists — with `used` false and an
expiry exactly 15 minutes after issuance, and sends an email whose
sign-in link embeds the generated token.  (A deactivated account is
answered with HTTP 403 and no token; see the counterexample.) -/
theorem magic_link_request_one_token (frontend : String) (db : AuthDb) (now : Nat)
    (emailRaw freshTok : String)
    (hactive : ∀ u ∈ db.users, u.email = pyLower emailRaw → u.is_active = true) :
    ∃ db' msg uid,
      request_magic_link frontend db now emailRaw freshTok = .ok (db', msg) ∧
      db'.magic_tokens = db.magic_tokens.map (invalidateFor uid)
          ++ [MagicTokenRow.fresh freshTok uid (now + 15)] ∧
      (∃ u ∈ db'.users, u.email = pyLower emailRaw ∧ u.id = uid) ∧
      ((∀ u ∈ db.users, u.email ≠ pyLower emailRaw) →
        db'.users = db.users
          ++ [⟨db.next_user_id, pyLower emailRaw, none, none, none, true, false⟩]) ∧
      msg.to_addr = pyLower emailRaw ∧
      msg.link = frontend ++ "/dashboard?token=" ++ freshTok := by
  cases hfound : db.users.find? (fun v => v.email == pyLower emailRaw) with
  | some u =>
    have hmem := List.mem_of_find?_eq_some hfound
    have hemail : u.email = pyLower emailRaw := by
      simpa using List.find?_some hfound
    have hact : u.is_active = true := hactive u hmem hemail
    have hreq : request_magic_link frontend db now emailRaw freshTok
        = .ok ({ db with magic_tokens := db.magic_tokens.map (invalidateFor u.id)
              ++ [MagicTokenRow.fresh freshTok u.id (now + 15)] },
            send_magic_link_email frontend (pyLower emailRaw) freshTok) := by
      simp only [request_magic_link, hfound]
      rw [if_neg (show ¬(u.is_active = false) by simp [hact])]
      rfl
    refine ⟨_, _, u.id, hreq, rfl, ⟨u, hmem, hemail, rfl⟩, ?_, rfl, rfl⟩
    intro hall
    exact absurd hemail (hall u hmem)
  | none =>
    have hreq : request_magic_link frontend db now emailRaw freshTok
        = .ok (⟨db.users
              ++ [⟨db.next_user_id, pyLower emailRaw, none, none, none, true, false⟩],
            db.magic_tokens.map (invalidateFor db.next_user_id)
              ++ [MagicTokenRow.fresh freshTok db.next_user_id (now + 15)],
            db.next_user_id + 1⟩,
            send_magic_link_email frontend (pyLower emailRaw) freshTok) := by
      simp only [request_magic_link, hfound]
      rw [if_neg (show ¬(true = false) by simp)]
      rfl
    refine ⟨_, _, db.next_user_id, hreq, rfl, ?_, fun _ => rfl, rfl, rfl⟩
    exact ⟨⟨db.next_user_id, pyLower emailRaw, none, none, none, true, false⟩,
      List.mem_append_right _ (List.mem_singleton.mpr rfl), rfl, rfl⟩

/-- Witness for C9: requesting a link for a fresh address creates the
account and stores the one fresh token. -/
theorem magic_link_request_one_token_witness :
    ∃ db' msg uid,
      request_magic_link "f" ⟨[], [], 1⟩ 0 "A@B" "t" = .ok (db', msg) ∧
      db'.magic_tokens = ([] : List MagicTokenRow).map (invalidateFor uid)
          ++ [MagicTokenRow.fresh "t" uid (0 + 15)] ∧
      (∃ u ∈ db'.users, u.email = pyLower "A@B" ∧ u.id = uid) ∧
      ((∀ u ∈ ([] : List AuthUser), u.email ≠ pyLower "A@B") →
        db'.users = [] ++ [⟨1, pyLower "A@B", none, none, none, true, false⟩]) ∧
      msg.to_addr = pyLower "A@B" ∧
      msg.link = "f" ++ "/dashboard?token=" ++ "t" :=
  magic_link_request_one_token "f" ⟨[], [], 1⟩ 0 "A@B" "t" (by decide)

/-- Counterexample to C9 as stated: a submitted email belonging to a
deactivated account is answered with HTTP 403 — no token is persisted
and no email is sent, so the claim's universal "for every submitted
email" fails. -/
theorem magic_link_request_inactive_cex :
    request_magic_link "f" ⟨[⟨1, "a@b", none, none, none, false, false⟩], [], 2⟩
        0 "a@b" "t"
      = .error ⟨403, "User account is deactivated"⟩ := by
  rfl

/-- **C10.** Each user has at most one usable magic token at any point:
`request_magic_link` first marks every unused token of the requesting
user used and then persists one fresh unused token (so the owner ends
with exactly one unused token and everyone else is untouched), and
`verify_magic_link` only consumes tokens; usable (unused and unexpired)
tokens are a subset of the unused ones. -/
theorem at_most_one_usable_magic_token (db : AuthDb) :
    (∀ frontend now e tk db' m,
      request_magic_link frontend db now e tk = .ok (db', m) →
      ∃ uid,
        db'.magic_tokens = db.magic_tokens.map (invalidateFor uid)
            ++ [MagicTokenRow.fresh tk uid (now + MAGIC_LINK_EXPIRE_MINUTES)] ∧
        (∀ uid', unusedCount db uid' ≤ 1 → unusedCount db' uid' ≤ 1) ∧
        unusedCount db' uid ≤ 1) ∧
    (∀ key now tk db' r,
      verify_magic_link key db now tk = .ok (db', r) →
      ∀ uid, unusedCount db uid ≤ 1 → unusedCount db' uid ≤ 1) ∧
    (∀ now uid, (usableTokensOf db now uid).length ≤ unusedCount db uid) := by
  refine ⟨?_, ?_, ?_⟩
  · intro frontend now e tk db' m h
    obtain ⟨-, uid, htoks, -⟩ := request_ok_cases frontend db now e tk db' m h
    have hself : unusedCount db' uid ≤ 1 := by
      rw [unusedCount, unusedTokensOf, htoks, List.filter_append,
        filter_map_invalidate_self]
      simp [MagicTokenRow.fresh]
    refine ⟨uid, htoks, ?_, hself⟩
    intro uid' hle
    by_cases huid : uid' = uid
    · rw [huid]
      exact hself
    · rw [unusedCount, unusedTokensOf, htoks, List.filter_append,
        filter_map_invalidate_other _ _ _ huid]
      have huid2 : uid ≠ uid' := fun hc => huid hc.symm
      have hfresh : (List.filter
          (fun r => r.user_id == uid' && r.used == false)
          [MagicTokenRow.fresh tk uid (now + MAGIC_LINK_EXPIRE_MINUTES)]) = [] := by
        simp [MagicTokenRow.fresh, huid2]
      rw [hfresh, List.append_nil]
      exact hle
  · intro key now tk db' r h uid hle
    have htoks := verify_ok_tokens key db now tk db' r h
    rw [unusedCount, unusedTokensOf, htoks]
    exact Nat.le_trans (length_filter_markFirstUsed _ _ _) hle
  · intro now uid
    rw [unusedCount, usableTokensOf, unusedTokensOf,
      ← List.countP_eq_length_filter, ← List.countP_eq_length_filter]
    refine List.countP_mono_left ?_
    intro r _ hpr
    simp only [Bool.and_eq_true] at hpr ⊢
    exact hpr.1

/-- Witness for C10: a second magic-link request invalidates the first
token and leaves the requester with exactly one unused token. -/
theorem at_most_one_usable_magic_token_witness :
    ∃ uid,
      (⟨[⟨1, "a@b", none, none, none, true, false⟩],
          [⟨"old", 1, 100, true⟩, ⟨"new", 1, 15, false⟩], 2⟩ : AuthDb).magic_tokens
        = ([⟨"old", 1, 100, false⟩] : List MagicTokenRow).map (invalidateFor uid)
            ++ [MagicTokenRow.fresh "new" uid (0 + MAGIC_LINK_EXPIRE_MINUTES)] ∧
      (∀ uid',
        unusedCount ⟨[⟨1, "a@b", none, none, none, true, false⟩],
            [⟨"old", 1, 100, false⟩], 2⟩ uid' ≤ 1 →
        unusedCount ⟨[⟨1, "a@b", none, none, none, true, false⟩],
            [⟨"old", 1, 100, true⟩, ⟨"new", 1, 15, false⟩], 2⟩ uid' ≤ 1) ∧
      unusedCount ⟨[⟨1, "a@b", none, none, none, true, false⟩],
          [⟨"old", 1, 100, true⟩, ⟨"new", 1, 15, false⟩], 2⟩ uid ≤ 1 :=
  (at_most_one_usable_magic_token
      ⟨[⟨1, "a@b", none, none, none, true, false⟩], [⟨"old", 1, 100, false⟩], 2⟩).1
    "f" 0 "a@b" "new"
    ⟨[⟨1, "a@b", none, none, none, true, false⟩],
      [⟨"old", 1, 100, true⟩, ⟨"new", 1, 15, false⟩], 2⟩
    ⟨"a@b", "Sign in to your account", "f/dashboard?token=new"⟩
    rfl

theorem updateUser_map {β : Type} (g : AuthUser → β) (users : List AuthUser)
    (u u' : AuthUser) (hids : (users.map (fun v => v.id)).Nodup) (hu : u ∈ users)
    (hid : u'.id = u.id) (hg : g u' = g u) :
    (updateUser users u').map g = users.map g := by
  induction users with
  | nil => simp at hu
  | cons x xs ih =>
    rw [List.map_cons, List.nodup_cons] at hids
    obtain ⟨hx, hxs⟩ := hids
    rcases List.mem_cons.mp hu with rfl | hmem
    · have hhead : (if u.id == u'.id then u' else u) = u' := by
        simp [hid]
      have htail : xs.map (fun v => if v.id == u'.id then u' else v) = xs := by
        have hcongr : ∀ v ∈ xs, (if v.id == u'.id then u' else v) = v := by
          intro v hv
          have hne : v.id ≠ u.id := by
            intro hc
            exact hx (hc ▸ List.mem_map_of_mem _ hv)
          rw [if_neg (by simp only [beq_iff_eq, hid]; exact hne)]
        calc xs.map (fun v => if v.id == u'.id then u' else v)
            = xs.map id := List.map_congr_left hcongr
          _ = xs := List.map_id xs
      rw [updateUser, List.map_cons, hhead, htail, List.map_cons, List.map_cons, hg]
    · have hxid : x.id ≠ u.id := by
        intro hc
        exact hx (hc ▸ List.mem_map_of_mem _ hmem)
      have hhead : (if x.id == u'.id then u' else x) = x := by
        rw [if_neg (by simp only [beq_iff_eq, hid]; exact hxid)]
      rw [updateUser, List.map_cons, hhead, List.map_cons, List.map_cons]
      rw [show xs.map (fun v => if v.id == u'.id then u' else v) = updateUser xs u' from rfl]
      rw [ih hxs hmem]

theorem updateUser_bound (users : List AuthUser) (u' : AuthUser) (n : Nat)
    (h : ∀ v ∈ users, v.id < n) (hu' : u'.id < n) :
    ∀ v ∈ updateUser users u', v.id < n := by
  intro v hv
  obtain ⟨w, hw, heq⟩ := List.mem_map.mp hv
  cases hsplit : (w.id == u'.id) with
  | true => rw [hsplit] at heq; simp only [if_true] at heq; exact heq ▸ hu'
  | false => rw [hsplit] at heq; simp only [Bool.false_eq_true, if_false] at heq
             exact heq ▸ h w hw

theorem wf_updateUser (db : AuthDb) (tks : List MagicTokenRow) (u u' : AuthUser)
    (hwf : db.wf) (hu : u ∈ db.users) (hid : u'.id = u.id)
    (hemail : u'.email = u.email) :
    (AuthDb.mk (updateUser db.users u') tks db.next_user_id).wf := by
  obtain ⟨hids, hemails, hbound⟩ := hwf
  refine ⟨?_, ?_, ?_⟩
  · rw [show (AuthDb.mk (updateUser db.users u') tks db.next_user_id).users
        = updateUser db.users u' from rfl]
    rw [updateUser_map _ db.users u u' hids hu hid hid]
    exact hids
  · rw [show (AuthDb.mk (updateUser db.users u') tks db.next_user_id).users
        = updateUser db.users u' from rfl]
    rw [updateUser_map _ db.users u u' hids hu hid hemail]
    exact hemails
  · exact updateUser_bound db.users u' db.next_user_id hbound (hid ▸ hbound u hu)

theorem wf_appendUser (db : AuthDb) (tks : List MagicTokenRow) (newu : AuthUser)
    (hwf : db.wf) (hidnew : newu.id = db.next_user_id)
    (hemailnew : ∀ v ∈ db.users, v.email ≠ newu.email) :
    (AuthDb.mk (db.users ++ [newu]) tks (db.next_user_id + 1)).wf := by
  obtain ⟨hids, hemails, hbound⟩ := hwf
  refine ⟨?_, ?_, ?_⟩
  · rw [show (AuthDb.mk (db.users ++ [newu]) tks (db.next_user_id + 1)).users
        = db.users ++ [newu] from rfl]
    rw [List.map_append, List.nodup_append]
    refine ⟨hids, List.nodup_singleton _, ?_⟩
    intro a ha hb
    obtain ⟨v, hv, rfl⟩ := List.mem_map.mp ha
    rw [List.map_singleton, List.mem_singleton] at hb
    have hlt := hbound v hv
    rw [hb, hidnew] at hlt
    exact Nat.lt_irrefl _ hlt
  · rw [show (AuthDb.mk (db.users ++ [newu]) tks (db.next_user_id + 1)).users
        = db.users ++ [newu] from rfl]
    rw [List.map_append, List.nodup_append]
    refine ⟨hemails, List.nodup_singleton _, ?_⟩
    intro a ha hb
    obtain ⟨v, hv, rfl⟩ := List.mem_map.mp ha
    rw [List.map_singleton, List.mem_singleton] at hb
    exact hemailnew v hv hb
  · intro v hv
    rcases List.mem_append.mp hv with hmem | hmem
    · exact Nat.lt_succ_of_lt (hbound v hmem)
    · rw [List.mem_singleton] at hmem
      rw [hmem, hidnew]
      exact Nat.lt_succ_self _

/-- **C7.** `User.email` is the globally unique join key between OAuth
and magic-link identities: both user-creating handlers preserve
uniqueness of emails (and of primary keys), and a Google sign-in whose
`google_id` is unknown but whose email belongs to an existing user links
the Google account to that user instead of creating a second user. -/
theorem email_join_key (db : AuthDb) (info : GoogleUserInfo) (hwf : db.wf) :
    (∀ db' uid, google_callback db info = .ok (db', uid) → db'.wf) ∧
    (∀ frontend now e tk db' m,
      request_magic_link frontend db now e tk = .ok (db', m) → db'.wf) ∧
    ((∀ u ∈ db.users, u.google_id ≠ some info.sub) →
     (∃ u ∈ db.users, u.email = info.email) →
     ∀ db' uid, google_callback db info = .ok (db', uid) →
       db'.users.length = db.users.length ∧
       ∃ u' ∈ db'.users, u'.email = info.email ∧ u'.google_id = some info.sub ∧
         u'.id = uid) := by
  refine ⟨?_, ?_, ?_⟩
  · intro db' uid h
    cases hg : db.users.find? (fun v => v.google_id == some info.sub) with
    | some u =>
      simp only [google_callback, hg] at h
      split at h
      · exact absurd h (by simp)
      · rw [Except.ok.injEq, Prod.mk.injEq] at h
        obtain ⟨h1, -⟩ := h
        subst h1
        exact wf_updateUser db db.magic_tokens u _ hwf
          (List.mem_of_find?_eq_some hg) rfl rfl
    | none =>
      cases he : db.users.find? (fun v => v.email == info.email) with
      | some u =>
        simp only [google_callback, hg, he] at h
        split at h
        · exact absurd h (by simp)
        · rw [Except.ok.injEq, Prod.mk.injEq] at h
          obtain ⟨h1, -⟩ := h
          subst h1
          exact wf_updateUser db db.magic_tokens u _ hwf
            (List.mem_of_find?_eq_some he) rfl rfl
      | none =>
        simp only [google_callback, hg, he] at h
        rw [Except.ok.injEq, Prod.mk.injEq] at h
        obtain ⟨h1, -⟩ := h
        subst h1
        refine wf_appendUser db db.magic_tokens _ hwf rfl ?_
        intro v hv
        have hne := List.find?_eq_none.mp he v hv
        simpa using hne
  · intro frontend now e tk db' m h
    obtain ⟨-, uid, -, hcases⟩ := request_ok_cases frontend db now e tk db' m h
    obtain ⟨hids, hemails, hbound⟩ := hwf
    rcases hcases with ⟨u, hfound, hact, huid, husers, hnext⟩ |
        ⟨hfound, huid, husers, hnext⟩
    · refine ⟨?_, ?_, ?_⟩
      · rw [husers]; exact hids
      · rw [husers]; exact hemails
      · rw [husers, hnext]; exact hbound
    · have hnewemail : ∀ v ∈ db.users, v.email ≠ pyLower e := by
        intro v hv
        have hne := List.find?_eq_none.mp hfound v hv
        simpa using hne
      obtain ⟨h1', h2', h3'⟩ := wf_appendUser db db'.magic_tokens
        ⟨db.next_user_id, pyLower e, none, none, none, true, false⟩
        ⟨hids, hemails, hbound⟩ rfl hnewemail
      refine ⟨?_, ?_, ?_⟩
      · rw [husers]; exact h1'
      · rw [husers]; exact h2'
      · rw [husers, hnext]; exact h3'
  · intro hsub hexist db' uid h
    have hg : db.users.find? (fun v => v.google_id == some info.sub) = none := by
      rw [List.find?_eq_none]
      intro v hv
      simpa using hsub v hv
    obtain ⟨u0, hu0, hemail0⟩ := hexist
    have hsome : (db.users.find? (fun v => v.email == info.email)).isSome := by
      rw [List.find?_isSome]
      exact ⟨u0, hu0, by simp [hemail0]⟩
    cases he : db.users.find? (fun v => v.email == info.email) with
    | none => rw [he] at hsome; simp at hsome
    | some u =>
      simp only [google_callback, hg, he] at h
      split at h
      · exact absurd h (by simp)
      · rw [Except.ok.injEq, Prod.mk.injEq] at h
        obtain ⟨h1, h2⟩ := h
        subst h1
        constructor
        · exact List.length_map _ _
        · have hfu : (fun v => if v.id == (linkGoogle info u).id
              then linkGoogle info u else v) u = linkGoogle info u := by
            simp [linkGoogle]
          refine ⟨linkGoogle info u, ?_, ?_, rfl, h2⟩
          · exact List.mem_map.mpr ⟨u, List.mem_of_find?_eq_some he, hfu⟩
          · show (linkGoogle info u).email = info.email
            have hemailu : u.email = info.email := by
              simpa using List.find?_some he
            simpa [linkGoogle] using hemailu

/-- Witness for C7: a Google sign-in for an existing magic-link user
with a new `google_id` links the account in place. -/
theorem email_join_key_witness :
    (⟨[⟨1, "a@b", some "g1", none, none, true, true⟩], [], 2⟩ : AuthDb).users.length
      = (⟨[⟨1, "a@b", none, none, none, true, false⟩], [], 2⟩ : AuthDb).users.length ∧
    ∃ u' ∈ (⟨[⟨1, "a@b", some "g1", none, none, true, true⟩], [], 2⟩ : AuthDb).users,
      u'.email = "a@b" ∧ u'.google_id = some "g1" ∧ u'.id = 1 :=
  (email_join_key ⟨[⟨1, "a@b", none, none, none, true, false⟩], [], 2⟩
      ⟨"g1", "a@b", none, none⟩ (by decide)).2.2
    (by decide) ⟨⟨1, "a@b", none, none, none, true, false⟩, by decide, rfl⟩
    ⟨[⟨1, "a@b", some "g1", none, none, true, true⟩], [], 2⟩ 1 rfl

end EnterpriseAuth

namespace EnterpriseTasks

/-- **C8.** Task visibility: a non-staff user's list queryset only ever
contains tasks whose project has that user among its project members
(and the retrieve endpoint resolves inside the same queryset, so it 404s
otherwise); a staff user's queryset is the parameter-filtered queryset
with no membership restriction. -/
theorem task_visibility (db : TaskDb) (user : DjUser) (p : QueryParams) (now : Nat) :
    (user.is_staff = false →
      ∀ t ∈ get_queryset db user p now,
        ∃ m ∈ db.members, m.project = t.project ∧ m.user = user.id) ∧
    (user.is_staff = false →
      ∀ pk t, retrieve_task db user p now pk = some t →
        ∃ m ∈ db.members, m.project = t.project ∧ m.user = user.id) ∧
    (user.is_staff = true → get_queryset db user p now = baseQueryset db p now) ∧
    (∀ t ∈ get_queryset db user p now, t ∈ baseQueryset db p now) := by
  have hmem : user.is_staff = false →
      ∀ t ∈ get_queryset db user p now,
        ∃ m ∈ db.members, m.project = t.project ∧ m.user = user.id := by
    intro hstaff t ht
    rw [get_queryset, hstaff] at ht
    simp only [Bool.false_eq_true, if_false] at ht
    have hpred := List.of_mem_filter ht
    rw [isMember] at hpred
    obtain ⟨m, hm, hp⟩ := List.any_eq_true.mp hpred
    rw [Bool.and_eq_true, beq_iff_eq, beq_iff_eq] at hp
    exact ⟨m, hm, hp.1, hp.2⟩
  refine ⟨hmem, ?_, ?_, ?_⟩
  · intro hstaff pk t ht
    exact hmem hstaff t (List.mem_of_find?_eq_some ht)
  · intro hstaff
    rw [get_queryset, hstaff]
    simp
  · intro t ht
    rw [get_queryset] at ht
    split at ht
    · exact ht
    · exact List.mem_of_mem_filter ht

/-- Witness for C8: a non-staff user sees the task in their project and
not the one in the other project. -/
theorem task_visibility_witness :
    ∀ t ∈ get_queryset
        ⟨[⟨1, 1, .todo, .medium, none, none⟩, ⟨2, 2, .todo, .medium, none, none⟩],
          [], [⟨1, 7⟩], [⟨7, false⟩], 1⟩
        ⟨7, false⟩ QueryParams.noFilter 0,
      ∃ m ∈ ([⟨1, 7⟩] : List ProjectMemberRow), m.project = t.project ∧ m.user = 7 :=
  (task_visibility
      ⟨[⟨1, 1, .todo, .medium, none, none⟩, ⟨2, 2, .todo, .medium, none, none⟩],
        [], [⟨1, 7⟩], [⟨7, false⟩], 1⟩
      ⟨7, false⟩ QueryParams.noFilter 0).1 rfl

end EnterpriseTasks

namespace EnterpriseTasks

/-- Lead uniqueness at task `t` for a raw assignment list. -/
abbrev leadAt (l : List Assignment) (t : Nat) : Prop :=
  ∀ a ∈ l, ∀ b ∈ l, a.task = t → a.is_lead = true → b.task = t → b.is_lead = true →
    a = b

theorem atMostOneLead_eq_leadAt (db : TaskDb) (t : Nat) :
    atMostOneLead db t = leadAt db.assignments t := rfl

theorem leadAt_update (l : List Assignment) (t : Nat) (x' : Assignment) (i : Nat)
    (hmax : leadAt l t)
    (hcond : x'.task = t → x'.is_lead = true →
      ∀ w ∈ l, w.task = t → w.is_lead = true → w.id = i) :
    leadAt (l.map (fun v => if v.id == i then x' else v)) t := by
  intro x hx y hy hxt hxl hyt hyl
  obtain ⟨wx, hwx, hfx⟩ := List.mem_map.mp hx
  obtain ⟨wy, hwy, hfy⟩ := List.mem_map.mp hy
  by_cases cx : (wx.id == i) = true <;> by_cases cy : (wy.id == i) = true
  · rw [if_pos cx] at hfx
    rw [if_pos cy] at hfy
    rw [← hfx, ← hfy]
  · rw [if_pos cx] at hfx
    rw [if_neg cy] at hfy
    rw [← hfx] at hxt hxl
    rw [← hfy] at hyt hyl
    have hyid := hcond hxt hxl wy hwy hyt hyl
    rw [beq_iff_eq] at cy
    exact absurd hyid cy
  · rw [if_neg cx] at hfx
    rw [if_pos cy] at hfy
    rw [← hfx] at hxt hxl
    rw [← hfy] at hyt hyl
    have hxid := hcond hyt hyl wx hwx hxt hxl
    rw [beq_iff_eq] at cx
    exact absurd hxid cx
  · rw [if_neg cx] at hfx
    rw [if_neg cy] at hfy
    rw [← hfx, ← hfy]
    rw [← hfx] at hxt hxl
    rw [← hfy] at hyt hyl
    exact hmax wx hwx wy hwy hxt hxl hyt hyl

theorem leadAt_append (l : List Assignment) (t : Nat) (row : Assignment)
    (hmax : leadAt l t)
    (hrow : row.is_lead = true → ∀ w ∈ l, w.task = row.task → w.is_lead = false) :
    leadAt (l ++ [row]) t := by
  intro x hx y hy hxt hxl hyt hyl
  rcases List.mem_append.mp hx with hx' | hx' <;>
    rcases List.mem_append.mp hy with hy' | hy'
  · exact hmax x hx' y hy' hxt hxl hyt hyl
  · rw [List.mem_singleton] at hy'
    subst hy'
    have := hrow hyl x hx' (hxt.trans hyt.symm)
    rw [this] at hxl
    exact absurd hxl (by simp)
  · rw [List.mem_singleton] at hx'
    subst hx'
    have := hrow hxl y hy' (hyt.trans hxt.symm)
    rw [this] at hyl
    exact absurd hyl (by simp)
  · rw [List.mem_singleton] at hx'
    rw [List.mem_singleton] at hy'
    rw [hx', hy']

theorem leadAt_filter (l : List Assignment) (t : Nat) (p : Assignment → Bool)
    (hmax : leadAt l t) : leadAt (l.filter p) t := by
  intro x hx y hy hxt hxl hyt hyl
  exact hmax x (List.mem_of_mem_filter hx) y (List.mem_of_mem_filter hy)
    hxt hxl hyt hyl

theorem leadAt_clear (l : List Assignment) (t tid : Nat) (hmax : leadAt l t) :
    leadAt (l.map (fun v => if v.task == tid then { v with is_lead := false } else v)) t ∧
    (∀ w ∈ l.map (fun v => if v.task == tid then { v with is_lead := false } else v),
      w.task = tid → w.is_lead = false) := by
  constructor
  · intro x hx y hy hxt hxl hyt hyl
    obtain ⟨wx, hwx, hfx⟩ := List.mem_map.mp hx
    obtain ⟨wy, hwy, hfy⟩ := List.mem_map.mp hy
    by_cases cx : (wx.task == tid) = true
    · rw [if_pos cx] at hfx
      rw [← hfx] at hxl
      exact absurd hxl (by simp)
    · rw [if_neg cx] at hfx
      by_cases cy : (wy.task == tid) = true
      · rw [if_pos cy] at hfy
        rw [← hfy] at hyl
        exact absurd hyl (by simp)
      · rw [if_neg cy] at hfy
        rw [← hfx, ← hfy]
        rw [← hfx] at hxt hxl
        rw [← hfy] at hyt hyl
        exact hmax wx hwx wy hwy hxt hxl hyt hyl
  · intro w hw hwt
    obtain ⟨v, hv, hfv⟩ := List.mem_map.mp hw
    by_cases cv : (v.task == tid) = true
    · rw [if_pos cv] at hfv
      rw [← hfv]
    · rw [if_neg cv] at hfv
      rw [← hfv] at hwt
      rw [beq_iff_eq] at cv
      exact absurd hwt cv

end EnterpriseTasks

namespace EnterpriseTasks

/-- **C2 (amended).** After any assignment-mutating request, a task
still has at most one lead assignee, provided `assign` is never invoked
with `is_lead` true while the task already has a lead (re-assigning with
`is_lead` true does not clear the previous lead — see the
counterexample; `set-lead` is the action that transfers the lead
safely). -/
theorem single_lead_preserved (db : TaskDb) (t : Nat) (op : TaskOp)
    (hmax : atMostOneLead db t)
    (hassign : ∀ tid uid, op = .assign tid uid true →
      ∀ a ∈ db.assignments, a.task = tid → a.is_lead = false) :
    atMostOneLead (runOp db op) t := by
  cases op with
  | assign tid uid l =>
    show leadAt (assign_task db tid uid l).db.assignments t
    cases hft : db.tasks.find? (fun x => x.id == tid) with
    | none => simp only [assign_task, hft]; exact hmax
    | some task =>
      cases uid with
      | none => simp only [assign_task, hft]; exact hmax
      | some u =>
        cases hfu : db.users.find? (fun x => x.id == u) with
        | none => simp only [assign_task, hft, hfu]; exact hmax
        | some du =>
          by_cases hm : isMember db task.project u = false
          · simp only [assign_task, hft, hfu, if_pos hm]
            exact hmax
          · cases hfa : db.assignments.find?
                (fun a => a.task == tid && a.assignee == u) with
            | some a =>
              simp only [assign_task, hft, hfu, if_neg hm, hfa]
              show leadAt (assignmentUpdate db { a with is_lead := l }).assignments t
              apply leadAt_update _ _ _ _ hmax
              intro hxt hxl w hw hwt hwl
              have hl : l = true := hxl
              have hnolead := hassign tid (some u) (by rw [hl])
              have hatask : a.task = tid := by
                have hp := List.find?_some hfa
                rw [Bool.and_eq_true, beq_iff_eq, beq_iff_eq] at hp
                exact hp.1
              have hwtid : w.task = tid := by
                rw [hwt]
                have hxt' : a.task = t := hxt
                rw [← hxt']
                exact hatask
              have hwf := hnolead w hw hwtid
              rw [hwf] at hwl
              exact absurd hwl (by simp)
            | none =>
              have hhas : hasAssignment (assignmentCreate db tid u l) tid = true := by
                simp [hasAssignment, assignmentCreate, List.any_append]
              simp only [assign_task, hft, hfu, if_neg hm, hfa,
                if_neg (show ¬(hasAssignment (assignmentCreate db tid u l) tid = false)
                  by simp [hhas])]
              show leadAt (assignmentCreate db tid u l).assignments t
              apply leadAt_append _ _ _ hmax
              intro hrowlead w hw hwtask
              by_cases hhas0 : hasAssignment db tid = true
              · have hl : l = true := by
                  have : (if hasAssignment db tid = true then l else true) = true :=
                    hrowlead
                  rw [if_pos hhas0] at this
                  exact this
                exact hassign tid (some u) (by rw [hl]) w hw hwtask
              · rw [hasAssignment] at hhas0
                have hnone : ∀ w' ∈ db.assignments, ¬ (w'.task == tid) = true := by
                  intro w' hw' hc
                  exact hhas0 (List.any_eq_true.mpr ⟨w', hw', hc⟩)
                exact absurd (beq_iff_eq.mpr hwtask) (hnone w hw)
  | unassign tid uid =>
    show leadAt (unassign_task db tid uid).db.assignments t
    cases hft : db.tasks.find? (fun x => x.id == tid) with
    | none => simp only [unassign_task, hft]; exact hmax
    | some task =>
      cases uid with
      | none => simp only [unassign_task, hft]; exact hmax
      | some u =>
        cases hfa : db.assignments.find?
            (fun a => a.task == tid && a.assignee == u) with
        | none => simp only [unassign_task, hft, hfa]; exact hmax
        | some a =>
          have hmax1 : leadAt (db.assignments.filter (fun b => b.id != a.id)) t :=
            leadAt_filter _ _ _ hmax
          by_cases hc : (a.is_lead && hasAssignment
              { db with assignments := db.assignments.filter (fun b => b.id != a.id) }
              tid) = true
          · cases hfb : (db.assignments.filter (fun b => b.id != a.id)).find?
                (fun b => b.task == tid) with
            | none => simp only [unassign_task, hft, hfa, if_pos hc, hfb]; exact hmax1
            | some b =>
              simp only [unassign_task, hft, hfa, if_pos hc, hfb]
              show leadAt (assignmentUpdate
                { db with assignments := db.assignments.filter (fun x => x.id != a.id) }
                { b with is_lead := true }).assignments t
              apply leadAt_update _ _ _ _ hmax1
              intro hxt hxl w hw hwt hwl
              rw [Bool.and_eq_true] at hc
              have halead : a.is_lead = true := hc.1
              have hatask : a.task = tid := by
                have hp := List.find?_some hfa
                rw [Bool.and_eq_true, beq_iff_eq, beq_iff_eq] at hp
                exact hp.1
              have hbt : b.task = tid := by
                have hp := List.find?_some hfb
                rwa [beq_iff_eq] at hp
              have httid : t = tid := by
                have hxt' : b.task = t := hxt
                rw [← hxt']
                exact hbt.symm ▸ rfl
              have hwmem : w ∈ db.assignments := List.mem_of_mem_filter hw
              have hwa : w = a := by
                apply hmax w hwmem a (List.mem_of_find?_eq_some hfa) hwt hwl
                · rw [hatask, ← httid]
                · exact halead
              have hwne := List.of_mem_filter hw
              rw [hwa] at hwne
              simp at hwne
          · simp only [unassign_task, hft, hfa, if_neg hc]
            exact hmax1
  | setLead tid uid =>
    show leadAt (set_lead_assignee db tid uid).db.assignments t
    cases hft : db.tasks.find? (fun x => x.id == tid) with
    | none => simp only [set_lead_assignee, hft]; exact hmax
    | some task =>
      cases uid with
      | none => simp only [set_lead_assignee, hft]; exact hmax
      | some u =>
        obtain ⟨hmax1, hclear⟩ := leadAt_clear db.assignments t tid hmax
        cases hfa : (db.assignments.map (fun a =>
            if a.task == tid then { a with is_lead := false } else a)).find?
            (fun a => a.task == tid && a.assignee == u) with
        | none => simp only [set_lead_assignee, hft, hfa]; exact hmax1
        | some a =>
          simp only [set_lead_assignee, hft, hfa]
          show leadAt (assignmentUpdate
            { db with assignments := db.assignments.map (fun x =>
                if x.task == tid then { x with is_lead := false } else x) }
            { a with is_lead := true }).assignments t
          apply leadAt_update _ _ _ _ hmax1
          intro hxt hxl w hw hwt hwl
          have hatask : a.task = tid := by
            have hp := List.find?_some hfa
            rw [Bool.and_eq_true, beq_iff_eq, beq_iff_eq] at hp
            exact hp.1
          have httid : t = tid := by
            have hxt' : a.task = t := hxt
            rw [← hxt']
            exact hatask
          have hwf := hclear w hw (httid ▸ hwt)
          rw [hwf] at hwl
          exact absurd hwl (by simp)

end EnterpriseTasks

namespace EnterpriseTasks

/-- Counterexample to C2 as stated: assigning a second member with
`is_lead: true` does not clear the first (auto-promoted) lead, leaving
the task with two lead assignments. -/
theorem single_lead_cex :
    ¬ atMostOneLead (runOps
      ⟨[⟨1, 1, .todo, .medium, none, none⟩], [], [⟨1, 1⟩, ⟨1, 2⟩],
        [⟨1, false⟩, ⟨2, false⟩], 1⟩
      [.assign 1 (some 1) false, .assign 1 (some 2) true]) 1 := by
  decide

/-- Witness for C2: transferring the lead through `set-lead` keeps the
lead unique. -/
theorem single_lead_preserved_witness :
    atMostOneLead (runOp
      ⟨[⟨1, 1, .todo, .medium, none, none⟩],
        [⟨1, 1, 1, true⟩, ⟨2, 1, 2, false⟩], [⟨1, 1⟩, ⟨1, 2⟩],
        [⟨1, false⟩, ⟨2, false⟩], 3⟩
      (.setLead 1 (some 2))) 1 :=
  single_lead_preserved _ 1 _ (by decide) (fun tid uid h => TaskOp.noConfusion h)

/-- **C4 (amended).** The two lead-bookkeeping mechanisms hold: the
first assignment created for a task is made the lead regardless of the
requested `is_lead` flag, and unassigning the lead while other
assignments remain promotes one of the remaining assignments to lead.
(The claimed invariant "every task with an assignee has a lead" does
not survive every operation sequence — re-assigning an existing sole
assignee with `is_lead` false demotes the lead and leaves none; see the
counterexample.) -/
theorem first_assignment_lead_and_promotion (db : TaskDb) :
    (∀ tid u l, hasAssignment db tid = false →
      (assign_task db tid (some u) l).err = none →
      ∃ a ∈ (assign_task db tid (some u) l).db.assignments,
        a.task = tid ∧ a.assignee = u ∧ a.is_lead = true) ∧
    (∀ tid u a,
      db.assignments.find? (fun x => x.task == tid && x.assignee == u) = some a →
      a.is_lead = true →
      (∃ b ∈ db.assignments, b.task = tid ∧ b.id ≠ a.id) →
      (db.tasks.find? (fun x => x.id == tid)).isSome →
      ∃ c ∈ (unassign_task db tid (some u)).db.assignments,
        c.task = tid ∧ c.is_lead = true ∧ c.id ≠ a.id) := by
  constructor
  · intro tid u l hhas herr
    cases hft : db.tasks.find? (fun x => x.id == tid) with
    | none =>
      simp only [assign_task, hft] at herr
      exact absurd herr (by simp)
    | some task =>
      cases hfu : db.users.find? (fun x => x.id == u) with
      | none =>
        simp only [assign_task, hft, hfu] at herr
        exact absurd herr (by simp)
      | some du =>
        by_cases hm : isMember db task.project u = false
        · simp only [assign_task, hft, hfu, if_pos hm] at herr
          exact absurd herr (by simp)
        · cases hfa : db.assignments.find?
              (fun x => x.task == tid && x.assignee == u) with
          | some a =>
            have hp := List.find?_some hfa
            rw [Bool.and_eq_true] at hp
            have : hasAssignment db tid = true :=
              List.any_eq_true.mpr ⟨a, List.mem_of_find?_eq_some hfa, hp.1⟩
            rw [this] at hhas
            exact absurd hhas (by simp)
          | none =>
            have hhas1 : hasAssignment (assignmentCreate db tid u l) tid = true := by
              simp [hasAssignment, assignmentCreate, List.any_append]
            simp only [assign_task, hft, hfu, if_neg hm, hfa,
              if_neg (show ¬(hasAssignment (assignmentCreate db tid u l) tid = false)
                by simp [hhas1])]
            show ∃ a ∈ (assignmentCreate db tid u l).assignments,
              a.task = tid ∧ a.assignee = u ∧ a.is_lead = true
            refine ⟨_, List.mem_append_right _ (List.mem_singleton.mpr rfl),
              rfl, rfl, ?_⟩
            show (if hasAssignment db tid = true then l else true) = true
            rw [if_neg (by simp [hhas])]
  · intro tid u a hfa halead hother hsome
    cases hft : db.tasks.find? (fun x => x.id == tid) with
    | none => rw [hft] at hsome; simp at hsome
    | some task =>
      obtain ⟨b, hbmem, hbtask, hbne⟩ := hother
      have hbfilter : b ∈ db.assignments.filter (fun x => x.id != a.id) :=
        List.mem_filter.mpr ⟨hbmem, by simpa using hbne⟩
      have hhas1 : hasAssignment
          { db with assignments := db.assignments.filter (fun x => x.id != a.id) }
          tid = true :=
        List.any_eq_true.mpr ⟨b, hbfilter, by simpa using hbtask⟩
      have hc : (a.is_lead && hasAssignment
          { db with assignments := db.assignments.filter (fun x => x.id != a.id) }
          tid) = true := by
        rw [halead, hhas1]
        rfl
      have hfbsome : ((db.assignments.filter (fun x => x.id != a.id)).find?
          (fun x => x.task == tid)).isSome :=
        List.find?_isSome.mpr ⟨b, hbfilter, by simpa using hbtask⟩
      cases hfb : (db.assignments.filter (fun x => x.id != a.id)).find?
          (fun x => x.task == tid) with
      | none => rw [hfb] at hfbsome; simp at hfbsome
      | some c0 =>
        simp only [unassign_task, hft, hfa, if_pos hc, hfb]
        have hc0filter := List.mem_of_find?_eq_some hfb
        have hc0task : c0.task = tid := by
          have hp := List.find?_some hfb
          rwa [beq_iff_eq] at hp
        have hc0ne : c0.id ≠ a.id := by
          have := List.of_mem_filter hc0filter
          simpa using this
        refine ⟨{ c0 with is_lead := true }, ?_, hc0task, rfl, hc0ne⟩
        show { c0 with is_lead := true } ∈ (assignmentUpdate
          { db with assignments := db.assignments.filter (fun x => x.id != a.id) }
          { c0 with is_lead := true }).assignments
        exact List.mem_map.mpr ⟨c0, hc0filter, by simp⟩

/-- Counterexample to C4's invariant: re-assigning the sole (lead)
assignee with `is_lead: false` demotes them, leaving an assigned task
with no lead. -/
theorem lead_demotion_cex :
    (∃ a ∈ (runOps
        ⟨[⟨1, 1, .todo, .medium, none, none⟩], [], [⟨1, 1⟩, ⟨1, 2⟩],
          [⟨1, false⟩, ⟨2, false⟩], 1⟩
        [.assign 1 (some 1) false, .assign 1 (some 1) false]).assignments,
      a.task = 1) ∧
    ¬ someLead (runOps
        ⟨[⟨1, 1, .todo, .medium, none, none⟩], [], [⟨1, 1⟩, ⟨1, 2⟩],
          [⟨1, false⟩, ⟨2, false⟩], 1⟩
        [.assign 1 (some 1) false, .assign 1 (some 1) false]) 1 := by
  decide

/-- Witness for C4: the first assignment (requested without the lead
flag) is created as lead, and unassigning a lead with another assignee
left promotes that assignee. -/
theorem first_assignment_lead_witness :
    (∃ a ∈ (assign_task
        ⟨[⟨1, 1, .todo, .medium, none, none⟩], [], [⟨1, 1⟩, ⟨1, 2⟩],
          [⟨1, false⟩, ⟨2, false⟩], 1⟩ 1 (some 1) false).db.assignments,
      a.task = 1 ∧ a.assignee = 1 ∧ a.is_lead = true) ∧
    (∃ c ∈ (unassign_task
        ⟨[⟨1, 1, .todo, .medium, none, none⟩],
          [⟨1, 1, 1, true⟩, ⟨2, 1, 2, false⟩], [⟨1, 1⟩, ⟨1, 2⟩],
          [⟨1, false⟩, ⟨2, false⟩], 3⟩ 1 (some 1)).db.assignments,
      c.task = 1 ∧ c.is_lead = true ∧ c.id ≠ 1) :=
  ⟨(first_assignment_lead_and_promotion
      ⟨[⟨1, 1, .todo, .medium, none, none⟩], [], [⟨1, 1⟩, ⟨1, 2⟩],
        [⟨1, false⟩, ⟨2, false⟩], 1⟩).1 1 1 false rfl rfl,
   (first_assignment_lead_and_promotion
      ⟨[⟨1, 1, .todo, .medium, none, none⟩],
        [⟨1, 1, 1, true⟩, ⟨2, 1, 2, false⟩], [⟨1, 1⟩, ⟨1, 2⟩],
        [⟨1, false⟩, ⟨2, false⟩], 3⟩).2 1 1 ⟨1, 1, 1, true⟩ rfl rfl
      ⟨⟨2, 1, 2, false⟩, by decide, rfl, by decide⟩ (by decide)⟩

end EnterpriseTasks
